import Mathlib

/-!
Verification of the CacheSim repository (src/cache_sim_omp.c).

The program simulates a MESI cache-coherence protocol: `num_threads` cores
each own a direct-mapped cache of `cache_size = 2` lines over a shared byte
memory, and execute per-core streams of `RD <address>` / `WR <address> <value>`
instructions.  The OpenMP code executes the body handling one instruction
under critical sections (and fully atomically in DEBUG mode); the spec's
`CoherenceController.execute` is one logically atomic unit.  We embed that
per-instruction body as a pure step function on a simulation state and the
instruction-line decoder as a pure function, both translated line by line
from `cpu_loop` and `decode_inst_line`.

Machine integers: the C `byte` type is `signed char`; decoded instruction
fields are bytes, modelled as `Int` (the value stored in the byte), with
`toByte` performing the wrap-around of assigning a C `int` to a `byte`.
The direct-map hash `inst.address % cache_size` is taken on a nonnegative
address (negative addresses make the C program index `c[core][-1]`, which is
undefined behaviour; theorems therefore carry `0 ≤ address` where the hash
matters).  The C memory array has 24 cells and no bounds check anywhere;
the model's memory is a total function `Int → Int`, so an out-of-range
access in C (undefined behaviour) appears in the model as an access at an
index outside `[0, 24)`.
-/

/-- MESI states, from `enum mesi_state { Invalid, Shared, Exclusive, Modified }`. -/
inductive MesiState where
  | Invalid
  | Shared
  | Exclusive
  | Modified
deriving DecidableEq

/-- One cache line, from `struct cache { byte address; byte value; mesi_state state; }`. -/
structure CacheLine where
  address : Int
  value : Int
  state : MesiState
deriving DecidableEq

/-- A decoded instruction, from `struct decoded_inst { int type; byte address; byte value; }`;
`type` is 0 for RD and 1 for WR. -/
structure Inst where
  type : Int
  address : Int
  value : Int
deriving DecidableEq

/-- Number of cache lines per core: `int cache_size = 2;` in `cpu_loop`. -/
def cache_size : Nat := 2

/-- Size of the shared memory: `int memory_size = 24;` in `main`. -/
def memory_size : Int := 24

/-- Wrap an `int` value into a `byte` (C `signed char`, two's complement),
as happens when `sscanf`'s `%d` result is assigned to a `byte` field. -/
def toByte (n : Int) : Int := (n + 128) % 256 - 128

/-- The whole mutable state of the simulation: every core's cache lines
(`cache **c`, indexed core-then-slot) and the shared `byte *memory`. -/
structure SimState where
  cache : Nat → Nat → CacheLine
  mem : Int → Int

/-- The direct-mapping hash `int hash = inst.address % cache_size;`.
For `0 ≤ address` (the defined case in C) this is `address % 2`. -/
def hashOf (inst : Inst) : Nat := inst.address.toNat % cache_size

/-- Update one core's line at one slot, leaving everything else unchanged. -/
def updCache (f : Nat → Nat → CacheLine) (core slot : Nat) (l : CacheLine) :
    Nat → Nat → CacheLine :=
  fun c s => if c = core ∧ s = slot then l else f c s

/-- Update the shared memory at one address. -/
def updMem (m : Int → Int) (a v : Int) : Int → Int :=
  fun x => if x = a then v else m x

/-- The eviction block of `cpu_loop` (lines 151–164): if the line's address
differs from the instruction's and its state is Modified or Shared, flush
the line's value to memory at the OLD address, then refill the line's value
from (post-flush) memory at the new address and take the new address.
The MESI state field is not touched by this block. -/
def evictStep (s : SimState) (core : Nat) (inst : Inst) : SimState :=
  let hash := hashOf inst
  let line := s.cache core hash
  if line.address ≠ inst.address ∧
      (line.state = MesiState.Modified ∨ line.state = MesiState.Shared) then
    let mem1 := updMem s.mem line.address line.value
    let line1 : CacheLine :=
      { line with value := mem1 inst.address, address := inst.address }
    { cache := updCache s.cache core hash line1, mem := mem1 }
  else s

/-- The invalidation loop of `cpu_loop` (lines 176–183): every other core
`i < num_threads` whose line at `hash` holds `addr` gets its state set to
Invalid.  The loop body only writes `c[i][hash].state`, and iterations touch
distinct lines, so it is a pointwise update. -/
def invalidateOthers (f : Nat → Nat → CacheLine) (n core hash : Nat) (addr : Int) :
    Nat → Nat → CacheLine :=
  fun j sl =>
    if j ≠ core ∧ j < n ∧ sl = hash ∧ (f j hash).address = addr then
      { f j hash with state := MesiState.Invalid }
    else f j sl

/-- The write branch of `cpu_loop` (lines 165–185): commit
`{inst.address, inst.value, Modified}` to the core's own line, then — under
the check `c[core][hash].state != Exclusive`, which reads the state just set
to Modified — run the invalidation loop over the other cores. -/
def writeStep (n : Nat) (s : SimState) (core : Nat) (inst : Inst) : SimState :=
  let hash := hashOf inst
  let c1 := updCache s.cache core hash
    ({ address := inst.address, value := inst.value, state := MesiState.Modified })
  if (c1 core hash).state ≠ MesiState.Exclusive then
    { s with cache := invalidateOthers c1 n core hash inst.address }
  else { s with cache := c1 }

/-- One iteration of the remote-sharer search loop of `cpu_loop`
(lines 196–205).  The accumulator is the cache array together with the
`found` flag; an iteration that fires copies core `i`'s whole line into the
executing core's line, then sets `i`'s state and then the executing core's
state to Shared.  The C loop has no `break`, so later sharers overwrite the
effect of earlier ones. -/
def scanIter (core hash : Nat) (addr : Int)
    (acc : (Nat → Nat → CacheLine) × Bool) (i : Nat) :
    (Nat → Nat → CacheLine) × Bool :=
  let f := acc.1
  if i = core ∨ (f i hash).address ≠ addr ∨ (f i hash).state = MesiState.Invalid then
    acc
  else
    let f1 := updCache f core hash (f i hash)
    let f2 := updCache f1 i hash { f1 i hash with state := MesiState.Shared }
    let f3 := updCache f2 core hash { f2 core hash with state := MesiState.Shared }
    (f3, true)

/-- The read branch of `cpu_loop` (lines 189–216): on a hit (address matches
and state is not Invalid) nothing changes; on a miss, the sharer-search loop
runs over all cores `0, …, n-1`, and if no sharer fired, the line is filled
from memory as `{inst.address, memory[inst.address], Exclusive}`. -/
def readStep (n : Nat) (s : SimState) (core : Nat) (inst : Inst) : SimState :=
  let hash := hashOf inst
  let line := s.cache core hash
  if line.address ≠ inst.address ∨ line.state = MesiState.Invalid then
    let res := (List.range n).foldl (scanIter core hash inst.address) (s.cache, false)
    if res.2 then { s with cache := res.1 }
    else
      let fetched : CacheLine :=
        { address := inst.address, value := s.mem inst.address,
          state := MesiState.Exclusive }
      { s with cache := updCache res.1 core hash fetched }
  else s

/-- One whole instruction execution by one core (the loop body of
`cpu_loop`, lines 143–217): eviction block first, then the write or read
branch according to `inst.type == 1`. -/
def step (n : Nat) (s : SimState) (core : Nat) (inst : Inst) : SimState :=
  let s1 := evictStep s core inst
  if inst.type = 1 then writeStep n s1 core inst else readStep n s1 core inst

/-- The value the executing core reports for an instruction: the `printf`
at lines 218–230 prints `c[core][hash].value` after the instruction was
handled. -/
def observedValue (n : Nat) (s : SimState) (core : Nat) (inst : Inst) : Int :=
  ((step n s core inst).cache core (hashOf inst)).value

/-- Modelled from the spec: the initial simulation state.  The C code
allocates the cache arrays and the memory with `malloc` and never
initialises them (their contents are indeterminate); the spec's lifecycle
section prescribes state = Invalid and value = 0 for every line, with the
address undefined (we pick 0), and a fixed-size zeroed memory. -/
def initState : SimState :=
  { cache := fun _ _ => ({ address := 0, value := 0, state := MesiState.Invalid }),
    mem := fun _ => 0 }

/-- An instruction that is well formed per the spec's data model: a read or
a write whose address lies in `[0, memory_size)`. -/
def ValidInst (i : Inst) : Prop :=
  (i.type = 0 ∨ i.type = 1) ∧ 0 ≤ i.address ∧ i.address < memory_size

instance : DecidablePred ValidInst := fun i => by
  unfold ValidInst; infer_instance

/-- States reachable from the initial state by any sequence of instruction
executions, each by some core `< n`. -/
inductive Reachable (n : Nat) : SimState → Prop where
  | init : Reachable n initState
  | exec {s : SimState} {core : Nat} {inst : Inst} :
      Reachable n s → core < n → ValidInst inst → Reachable n (step n s core inst)

/-- Core `c` holds address `A` in state `st` in some slot of its cache. -/
def Holds (s : SimState) (c : Nat) (A : Int) (st : MesiState) : Prop :=
  ∃ sl, sl < cache_size ∧ (s.cache c sl).address = A ∧ (s.cache c sl).state = st

/-- The shape of one instruction-file line as far as `decode_inst_line`'s
`sscanf` calls can see it: the first whitespace-separated token, and the
list of decimal integers `%d` successfully parsed after it.  `sscanf` leaves
a `%d` target untouched when the input runs out, and the C code initialises
those targets to 0, which `List.getD _ 0` reproduces. -/
structure RawLine where
  opcode : String
  args : List Int

/-- Result of decoding a line.  `unspecified` models the fall-through of
`decode_inst_line` for an opcode that is neither `RD` nor `WR`: the C
function returns its local `decoded inst` with every field still
uninitialised — there is no error value and no abort. -/
inductive DecodeResult where
  | ok : Inst → DecodeResult
  | unspecified : DecodeResult
deriving DecidableEq

/-- `decode_inst_line` (lines 53–72): dispatch on the first token; `RD`
yields type 0, the parsed address (or the initial 0 when the operand is
missing) and value `-1`; `WR` yields type 1 and the two parsed operands
(or 0 for each missing one); any other opcode falls through to the
`unspecified` return. -/
def decode_inst_line (l : RawLine) : DecodeResult :=
  if l.opcode = "RD" then
    DecodeResult.ok { type := 0, address := toByte (l.args.getD 0 0), value := -1 }
  else if l.opcode = "WR" then
    DecodeResult.ok { type := 1, address := toByte (l.args.getD 0 0),
                      value := toByte (l.args.getD 1 0) }
  else DecodeResult.unspecified

/-! ### Helper lemmas about the step phases -/

theorem updCache_at (f : Nat → Nat → CacheLine) (core slot : Nat) (l : CacheLine) :
    updCache f core slot l core slot = l := by
  simp [updCache]

theorem updCache_ne (f : Nat → Nat → CacheLine) (core slot : Nat) (l : CacheLine)
    (c sl : Nat) (h : ¬ (c = core ∧ sl = slot)) :
    updCache f core slot l c sl = f c sl := by
  simp only [updCache, if_neg h]

/-- The eviction block never touches another core's lines. -/
theorem evictStep_cache_other (s : SimState) (core : Nat) (inst : Inst)
    (j sl : Nat) (h : j ≠ core) :
    (evictStep s core inst).cache j sl = s.cache j sl := by
  simp only [evictStep]
  split
  · exact updCache_ne _ _ _ _ _ _ (fun hc => h hc.1)
  · rfl

/-- If the line already holds the instruction's address, the eviction block
does nothing. -/
theorem evictStep_noop_of_addr_eq (s : SimState) (core : Nat) (inst : Inst)
    (h : (s.cache core (hashOf inst)).address = inst.address) :
    evictStep s core inst = s := by
  unfold evictStep
  rw [if_neg]
  intro hc
  exact hc.1 h

/-- After the write branch, the executing core's line holds exactly the
instruction's address and value in state Modified. -/
theorem writeStep_core_line (n : Nat) (s : SimState) (core : Nat) (inst : Inst) :
    (writeStep n s core inst).cache core (hashOf inst)
      = { address := inst.address, value := inst.value, state := MesiState.Modified } := by
  unfold writeStep
  rw [if_pos]
  · show invalidateOthers _ n core (hashOf inst) inst.address core (hashOf inst) = _
    unfold invalidateOthers
    rw [if_neg (fun hc => hc.1 rfl)]
    exact updCache_at ..
  · rw [updCache_at]
    intro hc
    exact MesiState.noConfusion hc

/-- Effect of the write branch on another core's line: the line at the
instruction's slot whose address equals the instruction's address is
invalidated in place; every other line is untouched. -/
theorem writeStep_remote (n : Nat) (s : SimState) (core : Nat) (inst : Inst)
    (j sl : Nat) (h : j ≠ core) :
    (writeStep n s core inst).cache j sl
      = if j < n ∧ sl = hashOf inst ∧ (s.cache j (hashOf inst)).address = inst.address
        then { s.cache j (hashOf inst) with state := MesiState.Invalid }
        else s.cache j sl := by
  have hc1 : ∀ x : Nat, updCache s.cache core (hashOf inst)
      ({ address := inst.address, value := inst.value, state := MesiState.Modified }) j x
        = s.cache j x :=
    fun x => updCache_ne _ _ _ _ _ _ (fun hc => h hc.1)
  unfold writeStep
  rw [if_pos]
  · show invalidateOthers _ n core (hashOf inst) inst.address j sl = _
    unfold invalidateOthers
    rw [hc1]
    by_cases hcond : j < n ∧ sl = hashOf inst ∧ (s.cache j (hashOf inst)).address = inst.address
    · rw [if_pos ⟨h, hcond.1, hcond.2.1, hcond.2.2⟩, if_pos hcond]
    · rw [if_neg, if_neg hcond]
      · exact hc1 sl
      · intro hx
        exact hcond ⟨hx.2.1, hx.2.2.1, hx.2.2.2⟩
  · rw [updCache_at]
    intro hx
    exact MesiState.noConfusion hx

/-- The write branch never touches the shared memory. -/
theorem writeStep_mem (n : Nat) (s : SimState) (core : Nat) (inst : Inst) :
    (writeStep n s core inst).mem = s.mem := by
  simp only [writeStep]
  split <;> rfl

/-- A read hit (address matches, state not Invalid) changes nothing. -/
theorem readStep_hit (n : Nat) (s : SimState) (core : Nat) (inst : Inst)
    (h1 : (s.cache core (hashOf inst)).address = inst.address)
    (h2 : (s.cache core (hashOf inst)).state ≠ MesiState.Invalid) :
    readStep n s core inst = s := by
  unfold readStep
  rw [if_neg]
  intro hc
  cases hc with
  | inl hx => exact hx h1
  | inr hx => exact h2 hx

/-- Executing a write commits the instruction's address and value to the
executing core's line in state Modified, whatever the prior state was. -/
theorem step_write_core_line (n : Nat) (s : SimState) (core : Nat) (inst : Inst)
    (ht : inst.type = 1) :
    (step n s core inst).cache core (hashOf inst)
      = { address := inst.address, value := inst.value, state := MesiState.Modified } := by
  unfold step
  rw [if_pos ht]
  exact writeStep_core_line ..

/-- A non-write instruction runs the eviction block and then the read branch. -/
theorem step_eq_read (n : Nat) (s : SimState) (core : Nat) (inst : Inst)
    (ht : ¬ inst.type = 1) :
    step n s core inst = readStep n (evictStep s core inst) core inst := by
  simp only [step]
  rw [if_neg ht]

/-! ### Claim theorems -/

/-- C1: when a core executes an instruction whose address differs from the
address held in the line of its direct-mapped slot, then — if the line is
Modified or Shared — the eviction block first writes the line's current
value back to shared memory at the line's OLD address, and refills the
line's value from the flushed memory at the instruction's address (flush
strictly before refill, the refilled value being read from the post-flush
memory); if the line is Exclusive or Invalid, the eviction block leaves
shared memory unchanged. -/
theorem C1_eviction_flush_before_refill (s : SimState) (core : Nat) (inst : Inst)
    (ha : 0 ≤ inst.address)
    (h : (s.cache core (hashOf inst)).address ≠ inst.address) :
    (((s.cache core (hashOf inst)).state = MesiState.Modified ∨
        (s.cache core (hashOf inst)).state = MesiState.Shared) →
      (evictStep s core inst).mem
        = updMem s.mem (s.cache core (hashOf inst)).address
            (s.cache core (hashOf inst)).value ∧
      ((evictStep s core inst).cache core (hashOf inst)).value
        = updMem s.mem (s.cache core (hashOf inst)).address
            (s.cache core (hashOf inst)).value inst.address ∧
      ((evictStep s core inst).cache core (hashOf inst)).address = inst.address) ∧
    (((s.cache core (hashOf inst)).state = MesiState.Exclusive ∨
        (s.cache core (hashOf inst)).state = MesiState.Invalid) →
      (evictStep s core inst).mem = s.mem) := by
  constructor
  · intro hst
    simp only [evictStep]
    rw [if_pos ⟨h, hst⟩]
    refine ⟨rfl, ?_, ?_⟩ <;> · dsimp only; rw [updCache_at]
  · intro hst
    simp only [evictStep]
    rw [if_neg]
    intro hcond
    rcases hst with hx | hx <;> rcases hcond.2 with hy | hy <;>
      rw [hx] at hy <;> exact MesiState.noConfusion hy

theorem C1_witness :
    (evictStep ⟨fun _ _ => ⟨2, 9, MesiState.Modified⟩, fun _ => 0⟩ 0 ⟨0, 0, -1⟩).mem 2 = 9 ∧
    ((evictStep ⟨fun _ _ => ⟨2, 9, MesiState.Modified⟩, fun _ => 0⟩ 0 ⟨0, 0, -1⟩).cache 0
        (hashOf ⟨0, 0, -1⟩)).value = 0 ∧
    ((evictStep ⟨fun _ _ => ⟨2, 9, MesiState.Modified⟩, fun _ => 0⟩ 0 ⟨0, 0, -1⟩).cache 0
        (hashOf ⟨0, 0, -1⟩)).address = 0 := by
  have h := C1_eviction_flush_before_refill
    ⟨fun _ _ => ⟨2, 9, MesiState.Modified⟩, fun _ => 0⟩ 0 ⟨0, 0, -1⟩ (by decide) (by decide)
  have h1 := h.1 (Or.inl rfl)
  refine ⟨?_, ?_, h1.2.2⟩
  · rw [h1.1]
    decide
  · rw [h1.2.1]
    decide

/-- C2: a write by any core, whatever the prior state of its line, leaves
the executing core's line holding exactly the instruction's address and
value in state Modified, and every other core's line in that slot whose
address equals the instruction's address ends Invalid — the invalidation
broadcast is unconditional, because the `state != Exclusive` guard reads
the state just set to Modified and so always passes. -/
theorem C2_write_modified_and_invalidate (n : Nat) (s : SimState) (core : Nat)
    (inst : Inst) (ht : inst.type = 1) (hc : core < n) :
    (step n s core inst).cache core (hashOf inst)
      = { address := inst.address, value := inst.value, state := MesiState.Modified } ∧
    ∀ j, j < n → j ≠ core → (s.cache j (hashOf inst)).address = inst.address →
      ((step n s core inst).cache j (hashOf inst)).state = MesiState.Invalid := by
  refine ⟨step_write_core_line n s core inst ht, ?_⟩
  intro j hjn hjc haddr
  have hev : ∀ x : Nat, (evictStep s core inst).cache j x = s.cache j x :=
    fun x => evictStep_cache_other s core inst j x hjc
  unfold step
  rw [if_pos ht, writeStep_remote _ _ _ _ _ _ hjc, hev, if_pos ⟨hjn, rfl, haddr⟩]

theorem C2_witness :
    (step 2 initState 0 ⟨1, 0, 5⟩).cache 0 0
      = { address := 0, value := 5, state := MesiState.Modified } ∧
    ((step 2 initState 0 ⟨1, 0, 5⟩).cache 1 0).state = MesiState.Invalid := by
  have h := C2_write_modified_and_invalidate 2 initState 0 ⟨1, 0, 5⟩ rfl (by decide)
  exact ⟨h.1, h.2 1 (by decide) (by decide) (by decide)⟩

/-- C6: writing value V to address A and then, with no intervening
instruction, reading A on the same core observes exactly V (the read
resolves to the just-written cache line, a hit on the Modified line). -/
theorem C6_same_core_round_trip (n : Nat) (s : SimState) (core : Nat) (A V : Int)
    (hc : core < n) (hA : 0 ≤ A) :
    observedValue n (step n s core ⟨1, A, V⟩) core ⟨0, A, -1⟩ = V := by
  have h1 : (step n s core ⟨1, A, V⟩).cache core (hashOf ⟨0, A, -1⟩)
      = { address := A, value := V, state := MesiState.Modified } :=
    step_write_core_line n s core ⟨1, A, V⟩ rfl
  generalize hgen : step n s core ⟨1, A, V⟩ = s1 at h1 ⊢
  have hev : evictStep s1 core ⟨0, A, -1⟩ = s1 :=
    evictStep_noop_of_addr_eq s1 core ⟨0, A, -1⟩ (by rw [h1])
  have hrd : readStep n s1 core ⟨0, A, -1⟩ = s1 :=
    readStep_hit n s1 core ⟨0, A, -1⟩ (by rw [h1])
      (by rw [h1]; exact fun hx => MesiState.noConfusion hx)
  unfold observedValue
  rw [step_eq_read n s1 core ⟨0, A, -1⟩ (show ¬ (0 : Int) = 1 by decide), hev, hrd, h1]

theorem C6_witness :
    observedValue 2 (step 2 initState 0 ⟨1, 3, 7⟩) 0 ⟨0, 3, -1⟩ = 7 :=
  C6_same_core_round_trip 2 initState 0 3 7 (by decide) (by decide)

/-- C10: the write branch (commit plus invalidation broadcast) never writes
shared memory, and its only effect on another core's lines is to set the
state field to Invalid on the line at the instruction's slot whose address
equals the written address, keeping that line's address and value; every
other line of every other core is entirely unchanged. -/
theorem C10_invalidation_broadcast_frame (n : Nat) (s : SimState) (core : Nat)
    (inst : Inst) :
    (writeStep n s core inst).mem = s.mem ∧
    ∀ j sl, j ≠ core →
      (writeStep n s core inst).cache j sl
        = if j < n ∧ sl = hashOf inst ∧ (s.cache j (hashOf inst)).address = inst.address
          then { s.cache j (hashOf inst) with state := MesiState.Invalid }
          else s.cache j sl := by
  exact ⟨writeStep_mem n s core inst,
    fun j sl h => writeStep_remote n s core inst j sl h⟩

theorem C10_witness :
    (writeStep 2 initState 0 ⟨1, 0, 5⟩).mem 0 = 0 ∧
    (writeStep 2 initState 0 ⟨1, 0, 5⟩).cache 1 0
      = { initState.cache 1 0 with state := MesiState.Invalid } ∧
    (writeStep 2 initState 0 ⟨1, 0, 5⟩).cache 1 1 = initState.cache 1 1 := by
  have h := C10_invalidation_broadcast_frame 2 initState 0 ⟨1, 0, 5⟩
  refine ⟨?_, ?_, ?_⟩
  · rw [h.1]
    rfl
  · rw [h.2 1 0 (by decide), if_pos (by decide)]
    rfl
  · rw [h.2 1 1 (by decide), if_neg (by decide)]

/-- C3: the claimed invariant — at most one core's line holds a given
address in state Modified in any reachable state — FAILS on the code.  The
eviction block rewrites a line's address and value but never updates its
MESI state, so a Modified line that is evicted and refilled stays Modified
at its new address and the subsequent lookup is a hit.  Run (2 cores):
core 0 `WR 0 5`; core 1 `WR 2 7`; core 1 `RD 0`.  Core 1's Modified line
for address 2 is evicted, refilled from address 0 and stays Modified, so
both cores end Modified for address 0. -/
theorem C3_two_cores_modified_same_address :
    ∃ st, Reachable 2 st ∧ Holds st 0 0 MesiState.Modified ∧
      Holds st 1 0 MesiState.Modified := by
  refine ⟨step 2 (step 2 (step 2 initState 0 ⟨1, 0, 5⟩) 1 ⟨1, 2, 7⟩) 1 ⟨0, 0, -1⟩,
    Reachable.exec (Reachable.exec (Reachable.exec Reachable.init (by decide) (by decide))
      (by decide) (by decide)) (by decide) (by decide),
    ⟨0, by decide, by decide, by decide⟩, ⟨0, by decide, by decide, by decide⟩⟩

/-- C4: the claimed invariant — if some core holds address A Modified, no
other core holds A Shared or Exclusive — FAILS on the code, for the same
reason as C3: eviction keeps the old MESI state.  Run (2 cores): core 0
`WR 2 9`; core 1 `RD 2` (both lines become Shared for address 2); core 0
`WR 0 5` (core 0 now Modified for address 0); core 1 `RD 0` (core 1's
Shared line for address 2 is evicted, refilled from address 0 and stays
Shared).  Core 0 ends Modified for address 0 while core 1 holds address 0
Shared. -/
theorem C4_modified_coexists_with_shared :
    ∃ st, Reachable 2 st ∧ Holds st 0 0 MesiState.Modified ∧
      Holds st 1 0 MesiState.Shared := by
  refine ⟨step 2 (step 2 (step 2 (step 2 initState 0 ⟨1, 2, 9⟩) 1 ⟨0, 2, -1⟩) 0 ⟨1, 0, 5⟩)
      1 ⟨0, 0, -1⟩,
    Reachable.exec (Reachable.exec (Reachable.exec (Reachable.exec Reachable.init
      (by decide) (by decide)) (by decide) (by decide)) (by decide) (by decide))
      (by decide) (by decide),
    ⟨0, by decide, by decide, by decide⟩, ⟨0, by decide, by decide, by decide⟩⟩

/-- C5: the claim — a read miss with a sharer copies exactly the first
sharer found, converts only that sharer and the reader to Shared, and the
search stops there — FAILS on the code: the sharer loop has no `break`.
Run (3 cores): core 1 `WR 0 10`; core 2 `WR 2 20`; core 2 `RD 0` (its
Modified line is evicted and stays Modified, value 0 from memory); then
core 0 `RD 0`.  Before core 0's read, core 1 (the first sharer) holds
`{0, 10, Modified}` and core 2 (the second) holds `{0, 0, Modified}`.
After it, core 0 holds value 0 — the LAST sharer's value, not the first's
10 — and core 2's line was also converted to Shared. -/
theorem C5_sharer_scan_does_not_stop :
    Reachable 3 (step 3 (step 3 (step 3 (step 3 initState 1 ⟨1, 0, 10⟩) 2 ⟨1, 2, 20⟩)
      2 ⟨0, 0, -1⟩) 0 ⟨0, 0, -1⟩) ∧
    (step 3 (step 3 (step 3 initState 1 ⟨1, 0, 10⟩) 2 ⟨1, 2, 20⟩) 2 ⟨0, 0, -1⟩).cache 1 0
      = ⟨0, 10, MesiState.Modified⟩ ∧
    (step 3 (step 3 (step 3 initState 1 ⟨1, 0, 10⟩) 2 ⟨1, 2, 20⟩) 2 ⟨0, 0, -1⟩).cache 2 0
      = ⟨0, 0, MesiState.Modified⟩ ∧
    (step 3 (step 3 (step 3 (step 3 initState 1 ⟨1, 0, 10⟩) 2 ⟨1, 2, 20⟩) 2 ⟨0, 0, -1⟩)
      0 ⟨0, 0, -1⟩).cache 0 0 = ⟨0, 0, MesiState.Shared⟩ ∧
    (step 3 (step 3 (step 3 (step 3 initState 1 ⟨1, 0, 10⟩) 2 ⟨1, 2, 20⟩) 2 ⟨0, 0, -1⟩)
      0 ⟨0, 0, -1⟩).cache 2 0 = ⟨0, 0, MesiState.Shared⟩ := by
  refine ⟨Reachable.exec (Reachable.exec (Reachable.exec (Reachable.exec Reachable.init
      (by decide) (by decide)) (by decide) (by decide)) (by decide) (by decide))
      (by decide) (by decide),
    by decide, by decide, by decide, by decide⟩

/-- C7: the claim — shared-memory accesses with an address outside
`[0, memory_size)` fail with a range error — FAILS on the code: `cpu_loop`
indexes `memory` with no bounds check anywhere.  With memory_size = 24:
core 0 `WR 100 7` then `RD 102` (same slot) evicts the Modified line and
writes memory at the out-of-range address 100 (in C this is an
out-of-bounds array store, undefined behaviour); a plain `RD 100` likewise
succeeds, filling the line Exclusive from out-of-range memory, with no
error path at all. -/
theorem C7_out_of_range_access_not_rejected :
    memory_size ≤ 100 ∧
    (step 2 (step 2 initState 0 ⟨1, 100, 7⟩) 0 ⟨0, 102, -1⟩).mem 100 = 7 ∧
    (step 2 initState 0 ⟨0, 100, -1⟩).cache 0 0 = ⟨100, 0, MesiState.Exclusive⟩ :=
  ⟨by decide, by decide, by decide⟩

/-- C8: the spec-modelled initial state does start every line with state
Invalid and value 0 (this theorem evaluates that model).  The C code
itself does NOT establish this: `cpu_loop` allocates every core's lines
with bare `malloc` (line 105) and never writes them before use, so their
contents are indeterminate — the claim fails on the code as written, and
`initState` here records the spec's intent. -/
theorem C8_spec_modelled_init :
    ∀ c sl : Nat, (initState.cache c sl).state = MesiState.Invalid ∧
      (initState.cache c sl).value = 0 :=
  fun _ _ => ⟨rfl, rfl⟩

/-- C9: the claim — decoding fails with a parse error on an unrecognized
opcode or a missing operand, aborting the core's stream — FAILS on the
code: `decode_inst_line` has no error path.  A bare `RD` line decodes to a
read of address 0 (the `sscanf` target keeps its initial 0), a `WR 5` line
decodes to a write of value 0, and an unknown opcode falls through and
returns the local struct uninitialised (no diagnostic, the stream
continues). -/
theorem C9_decode_never_fails :
    decode_inst_line ⟨"RD", []⟩ = DecodeResult.ok ⟨0, 0, -1⟩ ∧
    decode_inst_line ⟨"WR", [5]⟩ = DecodeResult.ok ⟨1, 5, 0⟩ ∧
    decode_inst_line ⟨"XX", [3]⟩ = DecodeResult.unspecified :=
  ⟨by decide, by decide, by decide⟩
